import Mathlib

/-!
Verification of the batch lab-grading pipeline (`batch_grader.py`) and its
desktop front-end (`grader_gui.py`).

The Python sources are shallowly embedded: pure string manipulation is
translated to functions on `String`/`List Char`; the external effects
(PyMuPDF page rendering, OpenCV QR decoding, the Gemini inference call, the
best-effort model-listing diagnostic, `json.loads`) are modelled as explicit
inputs carried by each submission, so that every pipeline function is an
executable Lean definition.
-/

/-- JSON values, the shape of objects produced by `json.loads` and consumed
via Python `dict.get` in `batch_grader.main` and `GraderApp.run_logic`. -/
inductive JValue where
  | null : JValue
  | bool (b : Bool) : JValue
  | num (n : Int) : JValue
  | str (s : String) : JValue
  | arr (xs : List JValue) : JValue
  | obj (kvs : List (String × JValue)) : JValue

/-- Python truthiness (`if x:`) on JSON values: `None`, `False`, `0`, `""`,
`[]` and `{}` are falsy, everything else truthy. -/
def pyTruthy : JValue → Bool
  | .null => false
  | .bool b => b
  | .num n => !(n == 0)
  | .str s => !(s == "")
  | .arr xs => !xs.isEmpty
  | .obj kvs => !kvs.isEmpty

/-- Python truthiness of an optional string (`None` or a `str`), as used on
the scanner's return value (`if detected_sid:`). -/
def pyTruthyOptStr : Option String → Bool
  | none => false
  | some s => !(s == "")

/-- Python `==` between a JSON value and a string literal: only a string
compares equal to a string; values of other types are never equal to it. -/
def pyEqStrJ (v : JValue) (s : String) : Bool :=
  match v with
  | .str t => t == s
  | _ => false

/-- Python `dict.get(key)`: the stored value if the key is present (even if
that value is `None`), otherwise absence. -/
def pyGet (d : List (String × JValue)) (k : String) : Option JValue :=
  (d.find? (fun kv => kv.fst == k)).map (·.snd)

/-- Python `dict.get(key, default)`. -/
def pyGetD (d : List (String × JValue)) (k : String) (dflt : JValue) : JValue :=
  (pyGet d k).getD dflt

/-- Characters removed by Python `str.strip()` with no argument. -/
def isPySpace (c : Char) : Bool :=
  c == ' ' || c == '\t' || c == '\n' || c == '\r' || c == '\x0b' || c == '\x0c'

/-- Python `str.strip()` on the character list: drop whitespace from both
ends. -/
def pyStripList (l : List Char) : List Char :=
  ((l.dropWhile isPySpace).reverse.dropWhile isPySpace).reverse

/-- Python `str.strip()`. -/
def pyStrip (s : String) : String := ⟨pyStripList s.data⟩

/-- Boolean test that `pat` is a prefix of `l` (character-by-character). -/
def listStarts : List Char → List Char → Bool
  | [], _ => true
  | _ :: _, [] => false
  | a :: as, b :: bs => if a = b then listStarts as bs else false

/-- Boolean substring test (Python `in` on strings): some suffix of `l`
starts with `pat`. -/
def containsSub (pat : List Char) : List Char → Bool
  | [] => pat.isEmpty
  | c :: cs => listStarts pat (c :: cs) || containsSub pat cs

/-- Python `s in t` on strings. -/
def pyIn (sub s : String) : Bool := containsSub sub.data s.data

/-- Python `str.replace(pat, '')`: remove every occurrence of `pat`, left to
right, non-overlapping. The fuel argument (instantiated with the input
length, an upper bound on the number of steps) keeps the recursion
structural so that the definition evaluates by kernel reduction. -/
def pyRemoveAux (pat : List Char) : Nat → List Char → List Char
  | _, [] => []
  | 0, l => l
  | fuel + 1, c :: cs =>
      if !pat.isEmpty && listStarts pat (c :: cs)
      then pyRemoveAux pat fuel (cs.drop (pat.length - 1))
      else c :: pyRemoveAux pat fuel cs

/-- Python `s.replace(pat, '')`. -/
def pyRemove (s pat : String) : String := ⟨pyRemoveAux pat.data s.data.length s.data⟩

/-- Python `str.lower()` (the source only applies it to ASCII error
messages). -/
def pyLower (s : String) : String := ⟨s.data.map Char.toLower⟩

/-- Python `str.startswith(p)`. -/
def pyStartsWith (p s : String) : Bool := listStarts p.data s.data

/-- Response-cleaning step of `grade_submission` (batch_grader.py lines
117-120): if the text starts with a fenced ````json` marker, remove every
occurrence of ````json` and then every occurrence of ```` ` ```` fences, and
finally strip surrounding whitespace. -/
def cleanResponse (text : String) : String :=
  let t := if pyStartsWith "```json" text
           then pyRemove (pyRemove text "```json") "```"
           else text
  pyStrip t

/-- Modelled from the claim: a response text wrapped in a leading and a
trailing fenced-code-block marker, the wrapper the cleaning step is said to
tolerate. -/
def wrapFenced (t : String) : String := "```json\n" ++ t ++ "\n```"

/-- Body of an escape-free JSON string literal: the remaining characters up
to a closing quote, provided no interior quote or backslash occurs. -/
def strLitBody : List Char → Option (List Char)
  | ['"'] => some []
  | c :: cs => if c = '"' ∨ c = '\\' then none else (strLitBody cs).map (c :: ·)
  | [] => none

/-- Faithful partial model of Python `json.loads`, restricted to escape-free
JSON string literals; it returns `none` on every input outside that
fragment, where the pipeline treats a parse as having raised. The pipeline
definitions below take the parse function as an explicit argument, so this
restricted model is only ever used at concrete inputs it handles exactly as
`json.loads` does. -/
def jsonLoadsLit (s : String) : Option JValue :=
  match s.data with
  | '"' :: rest => (strLitBody rest).map (fun b => JValue.str ⟨b⟩)
  | _ => none

/-- Maximal leading run of decimal digits, the text captured by the group in
`re.search(r"SID:(\d+)", value)`. -/
def takeDigits (l : List Char) : List Char := l.takeWhile Char.isDigit

/-- Model of `re.search(r"SID:(\d+)", value)` on the character list: scan
left to right for the first position where the literal `SID:` is followed by
at least one digit; the captured group is the maximal digit run after the
colon. Absence means the pattern occurs nowhere in the string. -/
def sidSearchAux : List Char → Option (List Char)
  | [] => none
  | c :: cs =>
      if c = 'S' && listStarts ['I', 'D', ':'] cs && !(takeDigits (cs.drop 3)).isEmpty
      then some (takeDigits (cs.drop 3))
      else sidSearchAux cs

/-- Model of `re.search(r"SID:(\d+)", value)`, returning the captured digit
group when the pattern occurs in `value`. -/
def sidSearch (value : String) : Option String :=
  (sidSearchAux value.data).map (fun ds => ⟨ds⟩)

/-- A rasterized page as the identifier scanner sees it: the outcome of
`cv2.QRCodeDetector().detectAndDecode` on the raw image and on the
grayscale-thresholded (cutoff 150) image. OpenCV signals a failed decode
with the empty string, which is how `scan_qr_for_sid` tests it. -/
structure PageImage where
  rawDecode : String
  threshDecode : String

/-- Embedding of `scan_qr_for_sid` (batch_grader.py lines 71-91): try the
raw-image decode, fall back to the thresholded decode when it was empty;
if a value was decoded, return the `SID:` digit group when the pattern
matches, the raw decoded string otherwise; return `None` when both decode
attempts yielded nothing. -/
def scan_qr_for_sid (image : PageImage) : Option String :=
  let value := if !(image.rawDecode == "") then image.rawDecode else image.threshDecode
  if !(value == "") then
    match sidSearch value with
    | some digits => some digits
    | none => some value
  else none


/-- A page of an input PDF document, identified with the page image that
`page.get_pixmap(dpi=300)` renders it to. -/
structure PdfPage where
  image : PageImage

/-- Rendering one page, the body of the loop in `extract_images_from_pdf`
(pixmap at 300 DPI, PPM bytes, `cv2.imdecode`). -/
def renderPage (p : PdfPage) : PageImage := p.image

/-- An input PDF file: `none` models a file that `fitz.open` cannot open
(corrupt or unreadable); otherwise the ordered list of its pages, possibly
empty. -/
structure PdfFile where
  pages : Option (List PdfPage)

/-- Models `fitz.open`: raises (an IOError-class condition) exactly when the
file cannot be opened. PyMuPDF opens a document with zero pages without
error — the caller's emptiness check at batch_grader.py line 168 relies on
receiving the empty list in that case. -/
def fitzOpen (f : PdfFile) : Except String (List PdfPage) :=
  match f.pages with
  | none => .error "cannot open document"
  | some ps => .ok ps

/-- Embedding of `extract_images_from_pdf` (batch_grader.py lines 57-69):
open the document and render each page, in page order, to one image. -/
def extract_images_from_pdf (f : PdfFile) : Except String (List PageImage) :=
  (fitzOpen f).map (fun ps => ps.map renderPage)

/-- Outcome of the external inference call in `grade_submission`: the
response text on success, or the message of the raised exception (network
error, unknown model, any client failure). -/
inductive InferOutcome where
  | ok (text : String) : InferOutcome
  | error (msg : String) : InferOutcome

/-- Sentinel grading result returned by `grade_submission`'s exception
handler (batch_grader.py lines 137-143). -/
def sentinelResult : List (String × JValue) :=
  [("student_name_detected", JValue.str "Error"),
   ("sid_detected", JValue.str "Error"),
   ("score", JValue.num 0),
   ("feedback", JValue.str "AI Processing Failed. Check terminal for available models."),
   ("plagiarism_flag", JValue.bool false)]

/-- Condition under which the error handler attempts the model-listing
diagnostic: `"404" in str(e) or "not found" in str(e).lower()`. -/
def needsDiagnostic (msg : String) : Bool :=
  pyIn "404" msg || pyIn "not found" (pyLower msg)

/-- Console lines produced by the best-effort model-listing attempt inside
the error handler: the header and one line per model on success; nothing
when the listing itself fails, since the bare `except: pass` swallows that
failure. -/
def listModelsDiag : Except String (List String) → List String
  | .ok ms => "  --- Listing Available Models for this Key ---" :: ms.map (fun m => "  > " ++ m)
  | .error _ => []

/-- Console output of `grade_submission`'s exception handler for an error
with message `msg`: the error line, then the model listing when the message
suggests an unknown model. -/
def gradeDiagnostics (msg : String) (listing : Except String (List String)) : List String :=
  ("  AI Error: " ++ msg) :: (if needsDiagnostic msg then listModelsDiag listing else [])

/-- Modelled message of the `json.JSONDecodeError` raised when the cleaned
response text is not valid JSON; it only influences which diagnostic lines
are printed, never the returned result. -/
def jsonDecodeErrMsg : String := "Expecting value: line 1 column 1 (char 0)"

/-- Embedding of `grade_submission` (batch_grader.py lines 93-143) given the
outcome of the inference call, the `json.loads` parse function and the
outcome of the best-effort model listing. Returns the grading result
together with the console lines of the error path: on success the cleaned
response text is parsed; on any failure — a raised inference call or a
response whose cleaned text fails to parse — the sentinel result is
returned instead and the batch continues. -/
def grade_submission (parse : String → Option JValue) (o : InferOutcome)
    (listing : Except String (List String)) : JValue × List String :=
  match o with
  | .ok text =>
      match parse (cleanResponse text) with
      | some v => (v, [])
      | none => (JValue.obj sentinelResult, gradeDiagnostics jsonDecodeErrMsg listing)
  | .error msg => (JValue.obj sentinelResult, gradeDiagnostics msg listing)

/-- One input submission together with the outcomes of its external effects:
the PDF file, the inference-call outcome for its images, and the outcome of
the model-listing diagnostic should the error handler attempt it. -/
structure Submission where
  filename : String
  pdf : PdfFile
  inference : InferOutcome
  listing : Except String (List String)

/-- The batch driver's per-page scanning loop (batch_grader.py lines
173-178): `detected_sid` holds the last scan result and the loop breaks at
the first truthy value. -/
def scanLoop (acc : Option String) : List PageImage → Option String
  | [] => acc
  | img :: rest =>
      let v := scan_qr_for_sid img
      if pyTruthyOptStr v then v else scanLoop v rest

/-- The AI-fallback half of the final-SID logic (batch_grader.py lines
187-192): use the grading result's `sid_detected` field when it is truthy
and differs from the sentinels `"N/A"` and `"Error"`, else `"N/A"`. -/
def aiFallbackSid (ai : List (String × JValue)) : JValue :=
  match pyGet ai "sid_detected" with
  | some v =>
      if pyTruthy v && !pyEqStrJ v "N/A" && !pyEqStrJ v "Error"
      then v else JValue.str "N/A"
  | none => JValue.str "N/A"

/-- Final-SID reconciliation of the batch driver (batch_grader.py lines
184-192): the scanner's value when truthy, otherwise the AI fallback. -/
def finalSidBatch (detected : Option String) (ai : List (String × JValue)) : JValue :=
  match detected with
  | some s => if !(s == "") then JValue.str s else aiFallbackSid ai
  | none => aiFallbackSid ai

/-- Result Row assembled by the batch driver (batch_grader.py lines
195-203). -/
def mkRowBatch (filename : String) (finalSid : JValue) (ai : List (String × JValue)) :
    List (String × JValue) :=
  [("Filename", JValue.str filename),
   ("Student ID", finalSid),
   ("Student Name", pyGetD ai "student_name_detected" (JValue.str "Unknown")),
   ("Score", pyGetD ai "score" (JValue.num 0)),
   ("Flagged", JValue.str (if pyTruthy (pyGetD ai "plagiarism_flag" JValue.null) then "YES" else "No")),
   ("Flag Reason", pyGetD ai "plagiarism_reason" (JValue.str "")),
   ("Feedback", pyGetD ai "feedback" (JValue.str ""))]

/-- Per-submission body of the batch driver's loop (batch_grader.py lines
161-208). `none` means the submission produced no Result Row: rasterization
raised (caught by the per-submission handler), the image list was empty
(`continue`), or the parsed response was not a dict so the later `.get`
calls raised (also caught by the per-submission handler). -/
def processSubmission (parse : String → Option JValue) (s : Submission) :
    Option (List (String × JValue)) :=
  match extract_images_from_pdf s.pdf with
  | .error _ => none
  | .ok images =>
      if images.isEmpty then none
      else
        let detected := scanLoop none images
        match (grade_submission parse s.inference s.listing).fst with
        | .obj ai => some (mkRowBatch s.filename (finalSidBatch detected ai) ai)
        | _ => none

/-- Configured input directory of the batch driver. -/
def INPUT_DIR : String := "./student_submissions"

/-- Message printed by the batch driver when the input directory holds no
PDF files. -/
def noFilesMessage : String := "No PDF files found in " ++ INPUT_DIR

/-- Column order pandas infers for `pd.DataFrame(results)` built from a list
of dicts: keys in order of first appearance across the rows; an empty
result list yields no columns at all, and hence a CSV with no header
names. -/
def dataFrameColumns (rows : List (List (String × JValue))) : List String :=
  rows.foldl (fun acc row => row.foldl
    (fun acc2 kv => if acc2.contains kv.fst then acc2 else acc2 ++ [kv.fst]) acc) []

/-- Outcome of one batch run: the console messages modelled here and, when
the run reaches the export step, the written CSV as its header columns and
rows. `output = none` means no output file was written. -/
structure BatchResult where
  messages : List String
  output : Option (List String × List (List (String × JValue)))

/-- Embedding of `main` (batch_grader.py lines 145-213) from the directory
enumeration on: with no PDF files it reports and returns before the export;
otherwise every submission is processed in order and the collected rows are
written as one CSV at the end. -/
def batchMain (parse : String → Option JValue) (subs : List Submission) : BatchResult :=
  if subs.isEmpty then ⟨[noFilesMessage], none⟩
  else
    let rows := subs.filterMap (processSubmission parse)
    ⟨[], some (dataFrameColumns rows, rows)⟩

/-- Header columns of the batch driver's CSV. -/
def batchHeaderCols : List String :=
  ["Filename", "Student ID", "Student Name", "Score", "Flagged", "Flag Reason", "Feedback"]

/-- Header columns of the front-end's CSV. -/
def guiHeaderCols : List String :=
  ["Filename", "Student ID (QR)", "Student Name (AI)", "Score", "Flagged", "Flag Reason", "Feedback"]

/-- Message logged by the front-end when no PDF files are found. -/
def guiNoFilesMessage : String := "Error: No PDF files found."

/-- The front-end's per-page scanning loop (grader_gui.py lines 132-138):
`sid_raw` starts as `"N/A"` and is overwritten only by the first truthy
scan result. There is no fallback to the grading result's identifier. -/
def guiSidRaw : List PageImage → String
  | [] => "N/A"
  | img :: rest =>
      match scan_qr_for_sid img with
      | some v => if !(v == "") then v else guiSidRaw rest
      | none => guiSidRaw rest

/-- Result Row assembled by the front-end (grader_gui.py lines 147-155). -/
def mkRowGui (filename : String) (sidRaw : String) (ai : List (String × JValue)) :
    List (String × JValue) :=
  [("Filename", JValue.str filename),
   ("Student ID (QR)", JValue.str sidRaw),
   ("Student Name (AI)", pyGetD ai "student_name_detected" (JValue.str "Unknown")),
   ("Score", pyGetD ai "score" (JValue.num 0)),
   ("Flagged", JValue.str (if pyTruthy (pyGetD ai "plagiarism_flag" JValue.null) then "YES" else "No")),
   ("Flag Reason", pyGetD ai "plagiarism_reason" (JValue.str "")),
   ("Feedback", pyGetD ai "feedback" (JValue.str ""))]

/-- Per-submission body of the front-end's loop (grader_gui.py lines
128-159): like the batch driver's but with the GUI column names, the
`"N/A"`-defaulted scanner value and no emptiness check on the image list;
`none` again means the inner handler caught an exception and no row was
appended. -/
def processSubmissionGui (parse : String → Option JValue) (s : Submission) :
    Option (List (String × JValue)) :=
  match extract_images_from_pdf s.pdf with
  | .error _ => none
  | .ok images =>
      match (grade_submission parse s.inference s.listing).fst with
      | .obj ai => some (mkRowGui s.filename (guiSidRaw images) ai)
      | _ => none

/-- Fuel-bounded floor of the base-2 logarithm; with fuel at least `n` this
computes the exact floor log2 of a positive `n`, by structural recursion so
that it evaluates by kernel reduction. -/
def natLog2Aux : ℕ → ℕ → ℕ
  | 0, _ => 0
  | fuel + 1, n => if 2 ≤ n then natLog2Aux fuel (n / 2) + 1 else 0

/-- Floor of the base-2 logarithm of a natural number (0 for inputs below
2). -/
def natLog2floor (n : ℕ) : ℕ := natLog2Aux n n

/-- Floor of the base-2 logarithm of the positive rational `a / b`: the
unique `e` with `2 ^ e ≤ a / b < 2 ^ (e + 1)`. For `a ≥ b` this is the
floor log2 of the integer quotient; for `a < b` it is `-k` for the smallest
`k` with `a * 2 ^ k ≥ b`, which lies within two of the floor log2 of
`b / a`. -/
def ratLog2floor (a b : ℕ) : Int :=
  if b ≤ a then (natLog2floor (a / b) : Int)
  else
    let k0 := natLog2floor (b / a)
    if b ≤ a * 2 ^ k0 then -(k0 : Int)
    else if b ≤ a * 2 ^ (k0 + 1) then -((k0 : Int) + 1)
    else -((k0 : Int) + 2)

/-- Round `num / den` (for `den > 0`) to the nearest natural number, ties
to even — the IEEE-754 default rounding direction. -/
def natRoundNE (num den : ℕ) : ℕ :=
  let q := num / den
  let r := num % den
  if 2 * r < den then q
  else if den < 2 * r then q + 1
  else if q % 2 = 0 then q else q + 1

/-- Model of CPython's true division of two non-negative ints as performed
at grader_gui.py line 162: the result is the IEEE-754 binary64 double
nearest to the exact quotient (ties to even), returned here as the exact
rational value of that double. The significand grid is `2 ^ 52` wide at
exponent `e ≥ -1022` and fixed at `2 ^ -1074` below it (subnormals);
overflow to infinity is not modelled — this program's quotients lie in
`(0, 1]`. A zero numerator gives `0.0`; a zero divisor raises in Python and
is unreachable here, since the loop runs only when `total > 0`. -/
def floatDiv (a b : ℕ) : ℚ :=
  if a = 0 ∨ b = 0 then 0
  else
    let e := ratLog2floor a b
    let scale : Int := min (52 - e) 1074
    if 0 ≤ scale then
      let s := scale.toNat
      (natRoundNE (a * 2 ^ s) b : ℚ) / (2 : ℚ) ^ s
    else
      let s := (-scale).toNat
      (natRoundNE a (b * 2 ^ s) : ℚ) * (2 : ℚ) ^ s

/-- The front-end's grading loop (grader_gui.py lines 123-162): process the
submissions in order, collecting the rows that were produced and the
successive values set on the progress bar — the binary64 result of
`(i + 1) / total` after the `i`-th submission, updated whether or not that
submission produced a row. -/
def guiRunLoop (parse : String → Option JValue) (total : Nat) :
    List Submission → Nat → List (List (String × JValue)) × List ℚ
  | [], _ => ([], [])
  | s :: rest, idx =>
      let row := processSubmissionGui parse s
      let rec_ := guiRunLoop parse total rest (idx + 1)
      (row.toList ++ rec_.fst, floatDiv (idx + 1) total :: rec_.snd)

/-- Outcome of one front-end run: the log lines modelled here, the sequence
of progress-bar values, and the written CSV (`none` when no file was
written). -/
structure GuiResult where
  logs : List String
  progressTrace : List ℚ
  output : Option (List String × List (List (String × JValue)))

/-- Embedding of `GraderApp.run_logic` (grader_gui.py lines 104-174) from
the directory enumeration on: with no PDF files it logs an error and
returns before the export; otherwise it runs the grading loop and writes
the collected rows as one CSV at the end. -/
def guiRun (parse : String → Option JValue) (subs : List Submission) : GuiResult :=
  if subs.isEmpty then ⟨[guiNoFilesMessage], [], none⟩
  else
    let r := guiRunLoop parse subs.length subs 0
    ⟨[], r.snd, some (dataFrameColumns r.fst, r.fst)⟩


/-- Whether a rasterization outcome is the raised (IOError-class) case. -/
def raisedIO (r : Except String (List PageImage)) : Bool :=
  match r with
  | .error _ => true
  | .ok _ => false

/-- A failing inference call in the sense of the error-handling design: the
call raised (network error, unknown model, any client failure), or it
returned a response whose cleaned text fails to parse as JSON. -/
def failingCall (parse : String → Option JValue) : InferOutcome → Prop
  | .error _ => True
  | .ok t => parse (cleanResponse t) = none

/-! ## Helper lemmas -/

theorem listStarts_append (p r : List Char) : listStarts p (p ++ r) = true := by
  induction p with
  | nil => rfl
  | cons a as ih => simp [listStarts, ih]

theorem listStarts_exists {p l : List Char} (h : listStarts p l = true) :
    ∃ r, l = p ++ r := by
  induction p generalizing l with
  | nil => exact ⟨l, rfl⟩
  | cons a as ih =>
    cases l with
    | nil => simp [listStarts] at h
    | cons b bs =>
      simp only [listStarts] at h
      by_cases hab : a = b
      · subst hab
        obtain ⟨r, hr⟩ := ih (by simpa [if_pos rfl] using h)
        exact ⟨r, by simp [hr]⟩
      · simp [if_neg hab] at h

theorem takeDigits_all (l : List Char) : (takeDigits l).all Char.isDigit = true := by
  simp only [takeDigits, List.all_eq_true]
  intro c hc
  exact List.mem_takeWhile_imp hc

theorem sidSearchAux_digits {l d : List Char} (h : sidSearchAux l = some d) :
    d ≠ [] ∧ d.all Char.isDigit = true := by
  induction l with
  | nil => simp [sidSearchAux] at h
  | cons c cs ih =>
    rw [sidSearchAux] at h
    split at h
    · rename_i hcond
      obtain ⟨⟨_, _⟩, hne⟩ := by simpa [Bool.and_eq_true] using hcond
      have hd : takeDigits (cs.drop 3) = d := Option.some.inj h
      subst hd
      exact ⟨hne, takeDigits_all _⟩
    · exact ih h

theorem sidSearchAux_decomp {l d : List Char} (h : sidSearchAux l = some d) :
    ∃ pre post, l = pre ++ ('S' :: 'I' :: 'D' :: ':' :: d) ++ post := by
  induction l with
  | nil => simp [sidSearchAux] at h
  | cons c cs ih =>
    rw [sidSearchAux] at h
    split at h
    · rename_i hcond
      obtain ⟨⟨hS, hID⟩, -⟩ := by simpa [Bool.and_eq_true] using hcond
      obtain ⟨r, rfl⟩ := listStarts_exists hID
      subst hS
      have hd : takeDigits r = d := by
        have h2 := Option.some.inj h
        simpa using h2
      refine ⟨[], List.dropWhile Char.isDigit r, ?_⟩
      subst hd
      simp [takeDigits, List.takeWhile_append_dropWhile]
    · obtain ⟨pre, post, hp⟩ := ih h
      exact ⟨c :: pre, post, by simp [hp]⟩

theorem string_mk_ne_empty {ds : List Char} (h : ds ≠ []) : (⟨ds⟩ : String) ≠ "" := by
  intro he
  exact h (by simpa using congrArg String.data he)

theorem sidSearch_ne_empty {v s : String} (h : sidSearch v = some s) : s ≠ "" := by
  unfold sidSearch at h
  cases haux : sidSearchAux v.data with
  | none => rw [haux] at h; simp at h
  | some ds =>
    rw [haux] at h
    have hs : (⟨ds⟩ : String) = s := Option.some.inj (by simpa using h)
    subst hs
    exact string_mk_ne_empty (sidSearchAux_digits haux).1

theorem scan_ne_empty {img : PageImage} {s : String} (h : scan_qr_for_sid img = some s) :
    s ≠ "" := by
  unfold scan_qr_for_sid at h
  set value := if !(img.rawDecode == "") then img.rawDecode else img.threshDecode with hv
  by_cases hval : value = ""
  · simp [hval] at h
  · rw [if_pos (by simpa using hval)] at h
    cases hss : sidSearch value with
    | some digits =>
      rw [hss] at h
      have hs : digits = s := Option.some.inj h
      subst hs
      exact sidSearch_ne_empty hss
    | none =>
      rw [hss] at h
      have hs : value = s := Option.some.inj h
      subst hs
      exact hval

theorem scanLoop_eq_findSome (images : List PageImage) :
    scanLoop none images = images.findSome? scan_qr_for_sid := by
  induction images with
  | nil => rfl
  | cons img rest ih =>
    rw [scanLoop, List.findSome?]
    cases hscan : scan_qr_for_sid img with
    | none => simpa [pyTruthyOptStr] using ih
    | some s =>
      have hne : s ≠ "" := scan_ne_empty hscan
      simp [pyTruthyOptStr, hne]

/-! ## Claims -/

/-- C3. The identifier scanner returns the digit group alone when the
decoded payload matches the pattern `SID:<digits>` (for example the payload
`SID:123456` yields `123456`, and in general the returned value is a
non-empty digit string occurring in the payload immediately after a literal
`SID:`); it returns the raw decoded string verbatim when a payload was
decoded under either pass but the pattern does not match; and it signals
absence when neither the raw-image pass nor the thresholded fallback pass
decoded a value. -/
theorem C3_scanner_cases :
    (∀ t, scan_qr_for_sid ⟨"SID:123456", t⟩ = some "123456") ∧
    (∀ v t, v ≠ "" → sidSearch v = none → scan_qr_for_sid ⟨v, t⟩ = some v) ∧
    (∀ v, v ≠ "" → sidSearch v = none → scan_qr_for_sid ⟨"", v⟩ = some v) ∧
    (scan_qr_for_sid ⟨"", ""⟩ = none) ∧
    (∀ v t d, sidSearch v = some d →
       scan_qr_for_sid ⟨v, t⟩ = some d ∧ d ≠ "" ∧ d.data.all Char.isDigit = true ∧
       ∃ pre post, v.data = pre ++ ('S' :: 'I' :: 'D' :: ':' :: d.data) ++ post) := by
  refine ⟨?_, ?_, ?_, ?_, ?_⟩
  · intro t
    rfl
  · intro v t hv hs
    simp [scan_qr_for_sid, hv, hs]
  · intro v hv hs
    simp [scan_qr_for_sid, hv, hs]
  · rfl
  · intro v t d hs
    cases haux : sidSearchAux v.data with
    | none => simp [sidSearch, haux] at hs
    | some ds =>
      have hd : (⟨ds⟩ : String) = d := by
        unfold sidSearch at hs
        rw [haux] at hs
        exact Option.some.inj (by simpa using hs)
      obtain ⟨hds, hdig⟩ := sidSearchAux_digits haux
      obtain ⟨pre, post, hdec⟩ := sidSearchAux_decomp haux
      have hvne : v ≠ "" := by
        intro he
        subst he
        simp [sidSearchAux] at haux
      subst hd
      refine ⟨?_, string_mk_ne_empty hds, by simpa using hdig, pre, post, hdec⟩
      simp [scan_qr_for_sid, hvne, hs]

/-- C3 witness: the theorem applied at concrete payloads, discharging each
hypothesis. -/
theorem C3_scanner_cases_witness :
    scan_qr_for_sid ⟨"hello", ""⟩ = some "hello" ∧
    scan_qr_for_sid ⟨"SID:123456", ""⟩ = some "123456" := by
  refine ⟨C3_scanner_cases.2.1 "hello" "" (by decide) (by decide), ?_⟩
  exact (C3_scanner_cases.2.2.2.2 "SID:123456" "" "123456" (by decide)).1

/-- C10. For every page image the scanner returns either `None` or a
non-empty string — never the empty string — so a Python truthiness test on
its result coincides with a presence test, and the batch driver's per-page
loop (which continues past falsy values) computes exactly the first
non-absent scan across the pages in page order. -/
theorem C10_scanner_no_empty :
    (∀ img, scan_qr_for_sid img = none ∨
       ∃ s, scan_qr_for_sid img = some s ∧ s ≠ "") ∧
    (∀ img, pyTruthyOptStr (scan_qr_for_sid img) = (scan_qr_for_sid img).isSome) ∧
    (∀ images, scanLoop none images = images.findSome? scan_qr_for_sid) := by
  refine ⟨?_, ?_, scanLoop_eq_findSome⟩
  · intro img
    cases h : scan_qr_for_sid img with
    | none => exact Or.inl rfl
    | some s => exact Or.inr ⟨s, rfl, scan_ne_empty h⟩
  · intro img
    cases h : scan_qr_for_sid img with
    | none => rfl
    | some s =>
      have := scan_ne_empty h
      simp [pyTruthyOptStr, this]

theorem processSubmission_eq (parse : String → Option JValue) (s : Submission)
    (ps : List PdfPage) (ai : List (String × JValue))
    (hpdf : s.pdf.pages = some ps) (hne : ps ≠ [])
    (hai : (grade_submission parse s.inference s.listing).fst = JValue.obj ai) :
    processSubmission parse s =
      some (mkRowBatch s.filename
        (finalSidBatch (scanLoop none (ps.map renderPage)) ai) ai) := by
  unfold processSubmission
  simp [extract_images_from_pdf, fitzOpen, Except.map, hpdf, List.isEmpty_iff, hne, hai]

theorem processSubmissionGui_eq (parse : String → Option JValue) (s : Submission)
    (ps : List PdfPage) (ai : List (String × JValue))
    (hpdf : s.pdf.pages = some ps)
    (hai : (grade_submission parse s.inference s.listing).fst = JValue.obj ai) :
    processSubmissionGui parse s =
      some (mkRowGui s.filename (guiSidRaw (ps.map renderPage)) ai) := by
  unfold processSubmissionGui
  simp [extract_images_from_pdf, fitzOpen, Except.map, hpdf, hai]

/-- C7. With zero PDF files in the input directory, the batch driver
reports that no files were found and returns before the export step,
writing no output file, and the front-end logs the corresponding error and
likewise writes no output file; with at least one file, both reach the
export step and write an output file. -/
theorem C7_no_files :
    (∀ parse, batchMain parse [] = ⟨[noFilesMessage], none⟩) ∧
    (∀ parse, guiRun parse [] = ⟨[guiNoFilesMessage], [], none⟩) ∧
    (∀ parse subs, subs ≠ [] → (batchMain parse subs).output.isSome = true) ∧
    (∀ parse subs, subs ≠ [] → (guiRun parse subs).output.isSome = true) := by
  refine ⟨fun _ => rfl, fun _ => rfl, ?_, ?_⟩
  · intro parse subs hne
    simp [batchMain, List.isEmpty_iff, hne]
  · intro parse subs hne
    simp [guiRun, List.isEmpty_iff, hne]

/-- C7 witness: the theorem applied to concrete runs. -/
theorem C7_no_files_witness :
    (batchMain jsonLoadsLit [] = ⟨[noFilesMessage], none⟩) ∧
    (batchMain jsonLoadsLit
      [⟨"a.pdf", ⟨some [⟨⟨"", ""⟩⟩]⟩, .error "boom", .error "lf"⟩]).output.isSome = true :=
  ⟨C7_no_files.1 jsonLoadsLit,
   C7_no_files.2.2.1 jsonLoadsLit _ (by simp)⟩

/-- C9. While handling an inference error whose message suggests an unknown
model, the model-listing diagnostic is best-effort: the grading-result
component of `grade_submission` is identical whatever the listing outcome
(so a listing failure can never mask or replace the original error path's
sentinel result), that component is the sentinel, and a failed listing
produces no further console output beyond the original error line — the
bare `except` swallows it rather than raising. -/
theorem C9_diag_swallowed :
    (∀ parse msg l l', (grade_submission parse (.error msg) l).fst
        = (grade_submission parse (.error msg) l').fst) ∧
    (∀ parse msg l, (grade_submission parse (.error msg) l).fst
        = JValue.obj sentinelResult) ∧
    (∀ msg e, needsDiagnostic msg = true →
        gradeDiagnostics msg (.error e) = ["  AI Error: " ++ msg]) := by
  refine ⟨fun _ _ _ _ => rfl, fun _ _ _ => rfl, ?_⟩
  intro msg e h
  simp [gradeDiagnostics, h, listModelsDiag]

/-- C9 witness: the theorem applied to a concrete unknown-model error. -/
theorem C9_diag_swallowed_witness :
    gradeDiagnostics "404 models/gemini-2.5-flash is not found" (.error "listing failed")
      = ["  AI Error: 404 models/gemini-2.5-flash is not found"] :=
  C9_diag_swallowed.2.2 "404 models/gemini-2.5-flash is not found" "listing failed" (by decide)

/-- C2. A failing inference call — a raised network/model error, or a
malformed response whose cleaned text fails to parse as JSON — never
escapes `grade_submission`: the sentinel grading result with score 0,
`"Error"` identifier and name markers and a feedback string explaining that
AI processing failed is returned instead, and a submission whose PDF
rasterized to a non-empty image list still yields exactly one Result Row,
with score 0. -/
theorem C2_fail_soft (parse : String → Option JValue) (s : Submission)
    (ps : List PdfPage) (hpdf : s.pdf.pages = some ps) (hne : ps ≠ [])
    (hfail : failingCall parse s.inference) :
    (grade_submission parse s.inference s.listing).fst = JValue.obj sentinelResult ∧
    pyGet sentinelResult "score" = some (JValue.num 0) ∧
    pyGet sentinelResult "sid_detected" = some (JValue.str "Error") ∧
    pyGet sentinelResult "student_name_detected" = some (JValue.str "Error") ∧
    pyGet sentinelResult "feedback" =
      some (JValue.str "AI Processing Failed. Check terminal for available models.") ∧
    ∃ row, processSubmission parse s = some row ∧
      pyGet row "Score" = some (JValue.num 0) := by
  have hg : (grade_submission parse s.inference s.listing).fst = JValue.obj sentinelResult := by
    cases ho : s.inference with
    | ok t =>
      have hp : parse (cleanResponse t) = none := by
        have := hfail
        rw [ho] at this
        exact this
      simp [grade_submission, hp]
    | error m => rfl
  refine ⟨hg, rfl, rfl, rfl, rfl, ?_⟩
  exact ⟨_, processSubmission_eq parse s ps sentinelResult hpdf hne hg, rfl⟩

/-- C2 witness: the theorem applied to a concrete submission whose
inference call raises. -/
theorem C2_fail_soft_witness :
    ∃ row, processSubmission jsonLoadsLit
        ⟨"alice.pdf", ⟨some [⟨⟨"", ""⟩⟩]⟩, .error "boom", .error "lf"⟩ = some row ∧
      pyGet row "Score" = some (JValue.num 0) :=
  (C2_fail_soft jsonLoadsLit ⟨"alice.pdf", ⟨some [⟨⟨"", ""⟩⟩]⟩, .error "boom", .error "lf"⟩
    [⟨⟨"", ""⟩⟩] rfl (by simp) trivial).2.2.2.2.2

theorem scanLoop_some_ne {images : List PageImage} {s : String}
    (h : scanLoop none images = some s) : s ≠ "" := by
  induction images with
  | nil => simp [scanLoop] at h
  | cons img rest ih =>
    rw [scanLoop] at h
    cases hscan : scan_qr_for_sid img with
    | none =>
      rw [hscan] at h
      simp only [pyTruthyOptStr] at h
      exact ih h
    | some v =>
      have hv : v ≠ "" := scan_ne_empty hscan
      rw [hscan] at h
      simp only [pyTruthyOptStr] at h
      rw [if_pos (by simpa using hv)] at h
      have : v = s := Option.some.inj h
      subst this
      exact hv

theorem guiSidRaw_eq (images : List PageImage) :
    guiSidRaw images = (images.findSome? scan_qr_for_sid).getD "N/A" := by
  induction images with
  | nil => rfl
  | cons img rest ih =>
    rw [guiSidRaw]
    cases hscan : scan_qr_for_sid img with
    | none => simp [List.findSome?_cons, hscan, ih]
    | some v =>
      have hv : v ≠ "" := scan_ne_empty hscan
      simp [List.findSome?_cons, hscan, hv]

/-- C1 (amended). Identifier reconciliation. In both entry points a value
returned by the QR scanner for some page is used verbatim as the final
identifier, regardless of the grading result. In the batch driver, when the
scanner returns absence for all pages, the grading result's `sid_detected`
field is used when it is present, truthy and not equal to `"N/A"` or
`"Error"`, and the final identifier is the literal `"N/A"` otherwise. In
the front-end, when the scanner returns absence for all pages, the final
identifier is always the literal `"N/A"`: the grading result's
self-reported identifier field is never consulted. -/
theorem C1_reconciliation_amended :
    (∀ images ai s, scanLoop none images = some s →
        finalSidBatch (scanLoop none images) ai = JValue.str s) ∧
    (∀ ai v, pyGet ai "sid_detected" = some v → pyTruthy v = true →
        pyEqStrJ v "N/A" = false → pyEqStrJ v "Error" = false →
        finalSidBatch none ai = v) ∧
    (∀ ai v, pyGet ai "sid_detected" = some v →
        (pyTruthy v = false ∨ pyEqStrJ v "N/A" = true ∨ pyEqStrJ v "Error" = true) →
        finalSidBatch none ai = JValue.str "N/A") ∧
    (∀ ai, pyGet ai "sid_detected" = none → finalSidBatch none ai = JValue.str "N/A") ∧
    (∀ images s, images.findSome? scan_qr_for_sid = some s → guiSidRaw images = s) ∧
    (∀ images, images.findSome? scan_qr_for_sid = none → guiSidRaw images = "N/A") ∧
    (∀ fn sid ai, pyGet (mkRowGui fn sid ai) "Student ID (QR)" = some (JValue.str sid)) := by
  refine ⟨?_, ?_, ?_, ?_, ?_, ?_, fun _ _ _ => rfl⟩
  · intro images ai s h
    have hs : s ≠ "" := scanLoop_some_ne h
    rw [h]
    simp [finalSidBatch, hs]
  · intro ai v hget htru hna herr
    simp [finalSidBatch, aiFallbackSid, hget, htru, hna, herr]
  · intro ai v hget hdisj
    have hfalse : (pyTruthy v && !pyEqStrJ v "N/A" && !pyEqStrJ v "Error") = false := by
      rcases hdisj with h | h | h <;> simp [h]
    simp [finalSidBatch, aiFallbackSid, hget, hfalse]
  · intro ai hget
    simp [finalSidBatch, aiFallbackSid, hget]
  · intro images s h
    rw [guiSidRaw_eq, h]
    rfl
  · intro images h
    rw [guiSidRaw_eq, h]
    rfl

/-- C1 witness: the amended reconciliation applied at concrete inputs for
each case. -/
theorem C1_reconciliation_witness :
    finalSidBatch (scanLoop none [⟨"SID:777", ""⟩]) [("sid_detected", JValue.str "999")]
      = JValue.str "777" ∧
    finalSidBatch none [("sid_detected", JValue.str "123456")] = JValue.str "123456" ∧
    finalSidBatch none [("sid_detected", JValue.str "N/A")] = JValue.str "N/A" ∧
    finalSidBatch none [] = JValue.str "N/A" ∧
    guiSidRaw [⟨"SID:777", ""⟩] = "777" ∧
    guiSidRaw [⟨"", ""⟩] = "N/A" :=
  ⟨C1_reconciliation_amended.1 [⟨"SID:777", ""⟩] [("sid_detected", JValue.str "999")] "777"
      (by decide),
   C1_reconciliation_amended.2.1 [("sid_detected", JValue.str "123456")]
      (JValue.str "123456") rfl rfl rfl rfl,
   C1_reconciliation_amended.2.2.1 [("sid_detected", JValue.str "N/A")]
      (JValue.str "N/A") rfl (Or.inr (Or.inl rfl)),
   C1_reconciliation_amended.2.2.2.1 [] rfl,
   C1_reconciliation_amended.2.2.2.2.1 [⟨"SID:777", ""⟩] "777" (by decide),
   C1_reconciliation_amended.2.2.2.2.2.1 [⟨"", ""⟩] (by decide)⟩

/-- C1 counterexample. A front-end run on a submission whose pages decode
to nothing but whose grading result self-reports the identifier `123456`
writes the Result-Row identifier `"N/A"`, not `"123456"`: the claim's
reconciliation rule does not hold for the front-end entry point. -/
theorem C1_reconciliation_counterexample :
    processSubmissionGui
        (fun _ => some (JValue.obj
          [("sid_detected", JValue.str "123456"), ("score", JValue.num 87)]))
        ⟨"lab.pdf", ⟨some [⟨⟨"", ""⟩⟩]⟩, .ok "resp", .ok []⟩
      = some (mkRowGui "lab.pdf" "N/A"
          [("sid_detected", JValue.str "123456"), ("score", JValue.num 87)]) ∧
    pyGet (mkRowGui "lab.pdf" "N/A"
        [("sid_detected", JValue.str "123456"), ("score", JValue.num 87)])
        "Student ID (QR)" = some (JValue.str "N/A") ∧
    pyGet [("sid_detected", JValue.str "123456"), ("score", JValue.num 87)] "sid_detected"
      = some (JValue.str "123456") ∧
    JValue.str "N/A" ≠ JValue.str "123456" := by
  refine ⟨rfl, rfl, rfl, ?_⟩
  intro h
  injection h with h2
  exact absurd h2 (by decide)

/-- C5 (amended). The page rasterizer fails with an IOError-class condition
exactly when the PDF file cannot be opened; a structurally valid PDF with P
pages — including P = 0 — yields exactly P images in original page order,
and callers treat an empty image list as skip-and-continue: the submission
produces no row and the rest of the batch is processed unchanged. -/
theorem C5_rasterizer_amended :
    (∀ f : PdfFile, f.pages = none →
        extract_images_from_pdf f = .error "cannot open document") ∧
    (∀ f ps, f.pages = some ps →
        extract_images_from_pdf f = .ok (ps.map renderPage) ∧
        (ps.map renderPage).length = ps.length ∧
        ∀ i, (ps.map renderPage).get? i = (ps.get? i).map renderPage) ∧
    (∀ parse s, s.pdf.pages = some [] → processSubmission parse s = none) ∧
    (∀ parse s rest, s.pdf.pages = some [] →
        (s :: rest).filterMap (processSubmission parse)
          = rest.filterMap (processSubmission parse)) := by
  refine ⟨?_, ?_, ?_, ?_⟩
  · intro f h
    simp [extract_images_from_pdf, fitzOpen, Except.map, h]
  · intro f ps h
    refine ⟨by simp [extract_images_from_pdf, fitzOpen, Except.map, h], by simp, ?_⟩
    intro i
    simp
  · intro parse s h
    unfold processSubmission
    simp [extract_images_from_pdf, fitzOpen, Except.map, h]
  · intro parse s rest h
    have hnone : processSubmission parse s = none := by
      unfold processSubmission
      simp [extract_images_from_pdf, fitzOpen, Except.map, h]
    simp [List.filterMap_cons, hnone]

/-- C5 witness: the amended contract applied to a concrete unopenable file,
a concrete two-page file, and a concrete zero-page file inside a batch. -/
theorem C5_rasterizer_witness :
    extract_images_from_pdf ⟨none⟩ = .error "cannot open document" ∧
    extract_images_from_pdf ⟨some [⟨⟨"SID:1", ""⟩⟩, ⟨⟨"", ""⟩⟩]⟩
      = .ok [⟨"SID:1", ""⟩, ⟨"", ""⟩] ∧
    processSubmission jsonLoadsLit ⟨"empty.pdf", ⟨some []⟩, .error "x", .error "y"⟩ = none :=
  ⟨C5_rasterizer_amended.1 ⟨none⟩ rfl,
   (C5_rasterizer_amended.2.1 ⟨some [⟨⟨"SID:1", ""⟩⟩, ⟨⟨"", ""⟩⟩]⟩
      [⟨⟨"SID:1", ""⟩⟩, ⟨⟨"", ""⟩⟩] rfl).1,
   C5_rasterizer_amended.2.2.1 jsonLoadsLit
      ⟨"empty.pdf", ⟨some []⟩, .error "x", .error "y"⟩ rfl⟩

/-- C5 counterexample. A PDF that opens but contains zero pages does not
fail with an IOError-class condition as the claim states: the rasterizer
returns the empty image list normally. -/
theorem C5_rasterizer_counterexample :
    extract_images_from_pdf ⟨some []⟩ = .ok [] ∧
    raisedIO (extract_images_from_pdf ⟨some []⟩) = false :=
  ⟨rfl, rfl⟩

theorem processSubmission_shape {parse : String → Option JValue} {s : Submission}
    {row : List (String × JValue)} (h : processSubmission parse s = some row) :
    ∃ fn sid ai, row = mkRowBatch fn sid ai := by
  unfold processSubmission at h
  split at h
  · simp at h
  · split at h
    · simp at h
    · split at h <;> first | exact ⟨_, _, _, (Option.some.inj h).symm⟩ | simp at h

theorem processSubmissionGui_shape {parse : String → Option JValue} {s : Submission}
    {row : List (String × JValue)} (h : processSubmissionGui parse s = some row) :
    ∃ fn sid ai, row = mkRowGui fn sid ai := by
  unfold processSubmissionGui at h
  split at h
  · simp at h
  · split at h <;> first | exact ⟨_, _, _, (Option.some.inj h).symm⟩ | simp at h

theorem batch_cols_step (fn : String) (sid : JValue) (ai : List (String × JValue))
    (acc : List String) (hacc : acc = [] ∨ acc = batchHeaderCols) :
    (mkRowBatch fn sid ai).foldl
      (fun acc2 kv => if acc2.contains kv.fst then acc2 else acc2 ++ [kv.fst]) acc
      = batchHeaderCols := by
  rcases hacc with rfl | rfl <;> rfl

theorem gui_cols_step (fn : String) (sid : String) (ai : List (String × JValue))
    (acc : List String) (hacc : acc = [] ∨ acc = guiHeaderCols) :
    (mkRowGui fn sid ai).foldl
      (fun acc2 kv => if acc2.contains kv.fst then acc2 else acc2 ++ [kv.fst]) acc
      = guiHeaderCols := by
  rcases hacc with rfl | rfl <;> rfl

theorem dataFrameColumns_batch {rows : List (List (String × JValue))}
    (hne : rows ≠ [])
    (h : ∀ r ∈ rows, ∃ fn sid ai, r = mkRowBatch fn sid ai) :
    dataFrameColumns rows = batchHeaderCols := by
  suffices haux : ∀ (rs : List (List (String × JValue))),
      (∀ r ∈ rs, ∃ fn sid ai, r = mkRowBatch fn sid ai) →
      rs.foldl (fun acc row => row.foldl
        (fun acc2 kv => if acc2.contains kv.fst then acc2 else acc2 ++ [kv.fst]) acc)
        batchHeaderCols = batchHeaderCols by
    cases rows with
    | nil => exact absurd rfl hne
    | cons r rest =>
      obtain ⟨fn, sid, ai, rfl⟩ := h _ (List.mem_cons_self _ _)
      unfold dataFrameColumns
      rw [List.foldl_cons, batch_cols_step fn sid ai [] (Or.inl rfl)]
      exact haux rest (fun r hr => h r (List.mem_cons_of_mem _ hr))
  intro rs
  induction rs with
  | nil => intro _; rfl
  | cons r rest ih =>
    intro hall
    obtain ⟨fn, sid, ai, rfl⟩ := hall _ (List.mem_cons_self _ _)
    rw [List.foldl_cons, batch_cols_step fn sid ai batchHeaderCols (Or.inr rfl)]
    exact ih (fun r hr => hall r (List.mem_cons_of_mem _ hr))

theorem dataFrameColumns_gui {rows : List (List (String × JValue))}
    (hne : rows ≠ [])
    (h : ∀ r ∈ rows, ∃ fn sid ai, r = mkRowGui fn sid ai) :
    dataFrameColumns rows = guiHeaderCols := by
  suffices haux : ∀ (rs : List (List (String × JValue))),
      (∀ r ∈ rs, ∃ fn sid ai, r = mkRowGui fn sid ai) →
      rs.foldl (fun acc row => row.foldl
        (fun acc2 kv => if acc2.contains kv.fst then acc2 else acc2 ++ [kv.fst]) acc)
        guiHeaderCols = guiHeaderCols by
    cases rows with
    | nil => exact absurd rfl hne
    | cons r rest =>
      obtain ⟨fn, sid, ai, rfl⟩ := h _ (List.mem_cons_self _ _)
      unfold dataFrameColumns
      rw [List.foldl_cons, gui_cols_step fn sid ai [] (Or.inl rfl)]
      exact haux rest (fun r hr => h r (List.mem_cons_of_mem _ hr))
  intro rs
  induction rs with
  | nil => intro _; rfl
  | cons r rest ih =>
    intro hall
    obtain ⟨fn, sid, ai, rfl⟩ := hall _ (List.mem_cons_self _ _)
    rw [List.foldl_cons, gui_cols_step fn sid ai guiHeaderCols (Or.inr rfl)]
    exact ih (fun r hr => hall r (List.mem_cons_of_mem _ hr))

theorem guiRunLoop_rows_shape (parse : String → Option JValue) (total : Nat) :
    ∀ (subs : List Submission) (idx : Nat) (r : List (String × JValue)),
      r ∈ (guiRunLoop parse total subs idx).fst → ∃ fn sid ai, r = mkRowGui fn sid ai := by
  intro subs
  induction subs with
  | nil => intro idx r hr; simp [guiRunLoop] at hr
  | cons s rest ih =>
    intro idx r hr
    rw [guiRunLoop] at hr
    simp only [List.mem_append] at hr
    rcases hr with hr | hr
    · rw [Option.mem_toList] at hr
      exact processSubmissionGui_shape hr
    · exact ih (idx + 1) r hr

/-- C6 (amended). Every run that writes an output file with at least one
Result Row writes a CSV whose header holds exactly the columns Filename,
Student ID, Student Name, Score, Flagged, Flag Reason, Feedback (with the
front-end's slight renaming of the two identifier columns); when every
submission failed and the results list is empty, the file is still written
but pandas infers no columns, so it contains no header names. -/
theorem C6_csv_header_amended :
    (∀ parse subs cols rows, (batchMain parse subs).output = some (cols, rows) →
        rows ≠ [] → cols = batchHeaderCols) ∧
    (∀ parse subs cols rows, (guiRun parse subs).output = some (cols, rows) →
        rows ≠ [] → cols = guiHeaderCols) := by
  constructor
  · intro parse subs cols rows hout hne
    unfold batchMain at hout
    by_cases hsub : subs.isEmpty
    · rw [if_pos hsub] at hout
      simp at hout
    · rw [if_neg hsub] at hout
      simp only [Option.some.injEq, Prod.mk.injEq] at hout
      obtain ⟨hcols, hrows⟩ := hout
      subst hrows
      rw [← hcols]
      refine dataFrameColumns_batch hne (fun r hr => ?_)
      obtain ⟨s, _, hs⟩ := List.mem_filterMap.mp hr
      exact processSubmission_shape hs
  · intro parse subs cols rows hout hne
    unfold guiRun at hout
    by_cases hsub : subs.isEmpty
    · rw [if_pos hsub] at hout
      simp at hout
    · rw [if_neg hsub] at hout
      simp only [Option.some.injEq, Prod.mk.injEq] at hout
      obtain ⟨hcols, hrows⟩ := hout
      subst hrows
      rw [← hcols]
      exact dataFrameColumns_gui hne
        (fun r hr => guiRunLoop_rows_shape parse subs.length subs 0 r hr)

/-- C6 witness: the amended header property applied to a concrete batch run
and a concrete front-end run, each producing one (sentinel) row. -/
theorem C6_csv_header_witness :
    (∃ cols rows, (batchMain jsonLoadsLit
        [⟨"alice.pdf", ⟨some [⟨⟨"", ""⟩⟩]⟩, .error "boom", .error "lf"⟩]).output
        = some (cols, rows) ∧ rows ≠ [] ∧ cols = batchHeaderCols) ∧
    (∃ cols rows, (guiRun jsonLoadsLit
        [⟨"alice.pdf", ⟨some [⟨⟨"", ""⟩⟩]⟩, .error "boom", .error "lf"⟩]).output
        = some (cols, rows) ∧ rows ≠ [] ∧ cols = guiHeaderCols) :=
  ⟨⟨batchHeaderCols, [mkRowBatch "alice.pdf" (JValue.str "N/A") sentinelResult], rfl,
      by simp,
      C6_csv_header_amended.1 jsonLoadsLit
        [⟨"alice.pdf", ⟨some [⟨⟨"", ""⟩⟩]⟩, .error "boom", .error "lf"⟩]
        batchHeaderCols [mkRowBatch "alice.pdf" (JValue.str "N/A") sentinelResult]
        rfl (by simp)⟩,
   ⟨guiHeaderCols, [mkRowGui "alice.pdf" "N/A" sentinelResult], rfl,
      by simp,
      C6_csv_header_amended.2 jsonLoadsLit
        [⟨"alice.pdf", ⟨some [⟨⟨"", ""⟩⟩]⟩, .error "boom", .error "lf"⟩]
        guiHeaderCols [mkRowGui "alice.pdf" "N/A" sentinelResult]
        rfl (by simp)⟩⟩

/-- C6 counterexample. A run in which every submission failed (here: an
unreadable PDF) still writes an output file, but its inferred column list is
empty — the CSV contains none of the claimed header columns. -/
theorem C6_csv_header_counterexample :
    (batchMain jsonLoadsLit [⟨"bad.pdf", ⟨none⟩, .error "x", .error "y"⟩]).output
      = some ([], []) ∧
    ([] : List String) ≠ batchHeaderCols :=
  ⟨rfl, by decide⟩

theorem pyRemoveAux_no_occur {pat : List Char} :
    ∀ (fuel : Nat) (l : List Char), containsSub pat l = false → pyRemoveAux pat fuel l = l := by
  intro fuel
  induction fuel with
  | zero => intro l _; cases l <;> rfl
  | succ fuel ih =>
    intro l hocc
    cases l with
    | nil => rfl
    | cons c cs =>
      rw [containsSub, Bool.or_eq_false_iff] at hocc
      rw [pyRemoveAux]
      have hcond : (!pat.isEmpty && listStarts pat (c :: cs)) = false := by
        simp [hocc.1]
      rw [hcond]
      simp only [Bool.false_eq_true, if_false]
      exact congrArg (c :: ·) (ih cs hocc.2)

theorem pyRemoveAux_head (p : Char) (pr rest : List Char) (fuel : Nat) :
    pyRemoveAux (p :: pr) (fuel + 1) (p :: (pr ++ rest)) = pyRemoveAux (p :: pr) fuel rest := by
  rw [pyRemoveAux]
  have hstart : listStarts (p :: pr) (p :: (pr ++ rest)) = true := by
    have h2 := listStarts_append (p :: pr) rest
    simpa using h2
  have hcond : (!(p :: pr).isEmpty && listStarts (p :: pr) (p :: (pr ++ rest))) = true := by
    simp [hstart]
  rw [hcond]
  simp only [if_true]
  congr 1
  simp [List.drop_left']

theorem containsSub_cons_ne {hc : Char} {pt : List Char} :
    ∀ (l r : List Char), (∀ c ∈ l, c ≠ hc) →
      containsSub (hc :: pt) (l ++ r) = containsSub (hc :: pt) r := by
  intro l
  induction l with
  | nil => intro r _; rfl
  | cons c cs ih =>
    intro r hl
    have hcne : c ≠ hc := hl c (by simp)
    rw [List.cons_append, containsSub]
    have hstart : listStarts (hc :: pt) (c :: (cs ++ r)) = false := by
      simp only [listStarts]
      rw [if_neg (fun he => hcne he.symm)]
    rw [hstart]
    simpa using ih r (fun x hx => hl x (by simp [hx]))

theorem pyRemoveAux_transparent {hc : Char} {pt : List Char} :
    ∀ (l : List Char), (∀ c ∈ l, c ≠ hc) → ∀ (fuel : Nat) (r : List Char),
      pyRemoveAux (hc :: pt) (l.length + fuel) (l ++ r)
        = l ++ pyRemoveAux (hc :: pt) fuel r := by
  intro l
  induction l with
  | nil => intro _ fuel r; simp
  | cons c cs ih =>
    intro hl fuel r
    have hcne : c ≠ hc := hl c (by simp)
    rw [List.cons_append]
    have hlen : (c :: cs).length + fuel = (cs.length + fuel) + 1 := by
      simp [List.length_cons]
      omega
    rw [hlen, pyRemoveAux]
    have hstart : listStarts (hc :: pt) (c :: (cs ++ r)) = false := by
      simp only [listStarts]
      rw [if_neg (fun he => hcne he.symm)]
    have hcond : (!(hc :: pt).isEmpty && listStarts (hc :: pt) (c :: (cs ++ r))) = false := by
      simp [hstart]
    rw [hcond]
    simp only [Bool.false_eq_true, if_false]
    rw [ih (fun x hx => hl x (by simp [hx])) fuel r]
    simp

theorem pyStripList_cons_newline (l : List Char) :
    pyStripList ('\n' :: l) = pyStripList l := by
  have hsp : isPySpace '\n' = true := rfl
  simp [pyStripList, List.dropWhile_cons, hsp]

theorem pyStripList_append_newline (l : List Char) :
    pyStripList (l ++ ['\n']) = pyStripList l := by
  have hsp : isPySpace '\n' = true := rfl
  unfold pyStripList
  rw [List.dropWhile_append]
  by_cases h : (l.dropWhile isPySpace).isEmpty
  · rw [if_pos h]
    have h2 : l.dropWhile isPySpace = [] := by simpa [List.isEmpty_iff] using h
    rw [h2]
    rfl
  · rw [if_neg h]
    rw [List.reverse_append]
    simp only [List.reverse_cons, List.reverse_nil, List.nil_append, List.singleton_append]
    rw [List.dropWhile_cons, hsp]
    simp

theorem startsWith_false_of_no_backtick {t : String} (h : ∀ c ∈ t.data, c ≠ '`') :
    pyStartsWith "```json" t = false := by
  unfold pyStartsWith
  cases ht : t.data with
  | nil => rfl
  | cons c cs =>
    have hcne : c ≠ '`' := h c (by rw [ht]; simp)
    show listStarts ('`' :: '`' :: '`' :: 'j' :: 's' :: 'o' :: 'n' :: []) (c :: cs) = false
    simp only [listStarts]
    rw [if_neg (fun he => hcne he.symm)]

theorem cleanResponse_not_fenced {t : String} (h : pyStartsWith "```json" t = false) :
    cleanResponse t = pyStrip t := by
  simp [cleanResponse, h]

theorem wrapFenced_data (t : String) :
    (wrapFenced t).data
      = ('`' :: '`' :: '`' :: 'j' :: 's' :: 'o' :: 'n' :: [])
        ++ ('\n' :: (t.data ++ ('\n' :: '`' :: '`' :: '`' :: []))) := by
  show ("```json\n" ++ t ++ "\n```").data = _
  rw [String.data_append, String.data_append]
  show ('`' :: '`' :: '`' :: 'j' :: 's' :: 'o' :: 'n' :: '\n' :: [])
        ++ t.data ++ ('\n' :: '`' :: '`' :: '`' :: []) = _
  simp

theorem no_backtick_body {t : String} (h : ∀ c ∈ t.data, c ≠ '`') :
    ∀ c ∈ ('\n' :: t.data), c ≠ '`' := by
  intro c hc
  rcases List.mem_cons.mp hc with rfl | hc2
  · decide
  · exact h c hc2

theorem pyRemove_wrap_pass1 {t : String} (h : ∀ c ∈ t.data, c ≠ '`') :
    pyRemove (wrapFenced t) "```json"
      = ⟨'\n' :: (t.data ++ ('\n' :: '`' :: '`' :: '`' :: []))⟩ := by
  unfold pyRemove
  refine congrArg String.mk ?_
  rw [show ("```json" : String).data = '`' :: '`' :: '`' :: 'j' :: 's' :: 'o' :: 'n' :: []
      from rfl]
  rw [wrapFenced_data t]
  have hlen : (('`' :: '`' :: '`' :: 'j' :: 's' :: 'o' :: 'n' :: [])
      ++ ('\n' :: (t.data ++ ('\n' :: '`' :: '`' :: '`' :: [])))).length
      = ('\n' :: (t.data ++ ('\n' :: '`' :: '`' :: '`' :: []))).length + 6 + 1 := by
    simp only [List.length_append, List.length_cons, List.length_nil]
    omega
  rw [hlen]
  rw [show ('`' :: '`' :: '`' :: 'j' :: 's' :: 'o' :: 'n' :: [])
        ++ ('\n' :: (t.data ++ ('\n' :: '`' :: '`' :: '`' :: [])))
      = '`' :: (('`' :: '`' :: 'j' :: 's' :: 'o' :: 'n' :: [])
        ++ ('\n' :: (t.data ++ ('\n' :: '`' :: '`' :: '`' :: [])))) from rfl]
  rw [pyRemoveAux_head]
  refine pyRemoveAux_no_occur _ _ ?_
  rw [show ('\n' :: (t.data ++ ('\n' :: '`' :: '`' :: '`' :: [])))
      = ('\n' :: t.data) ++ ('\n' :: '`' :: '`' :: '`' :: []) from by simp]
  rw [containsSub_cons_ne ('\n' :: t.data) ('\n' :: '`' :: '`' :: '`' :: [])
      (no_backtick_body h)]
  rfl

theorem pyRemove_wrap_pass2 {t : String} (h : ∀ c ∈ t.data, c ≠ '`') :
    pyRemove ⟨'\n' :: (t.data ++ ('\n' :: '`' :: '`' :: '`' :: []))⟩ "```"
      = ⟨('\n' :: t.data) ++ ['\n']⟩ := by
  unfold pyRemove
  refine congrArg String.mk ?_
  rw [show ("```" : String).data = '`' :: '`' :: '`' :: [] from rfl]
  rw [show (⟨'\n' :: (t.data ++ ('\n' :: '`' :: '`' :: '`' :: []))⟩ : String).data
      = ('\n' :: t.data) ++ ('\n' :: '`' :: '`' :: '`' :: []) from by simp]
  have hlen : (('\n' :: t.data) ++ ('\n' :: '`' :: '`' :: '`' :: [])).length
      = ('\n' :: t.data).length + 4 := by
    simp only [List.length_append, List.length_cons, List.length_nil]
  rw [hlen]
  rw [pyRemoveAux_transparent ('\n' :: t.data) (no_backtick_body h) 4
      ('\n' :: '`' :: '`' :: '`' :: [])]
  rfl

theorem cleanResponse_wrapFenced {t : String} (h : ∀ c ∈ t.data, c ≠ '`') :
    cleanResponse (wrapFenced t) = pyStrip t := by
  have hstart : pyStartsWith "```json" (wrapFenced t) = true := by
    unfold pyStartsWith
    rw [wrapFenced_data t]
    exact listStarts_append _ _
  unfold cleanResponse
  rw [hstart]
  simp only [if_true]
  rw [pyRemove_wrap_pass1 h, pyRemove_wrap_pass2 h]
  unfold pyStrip
  refine congrArg String.mk ?_
  show pyStripList (('\n' :: t.data) ++ ['\n']) = pyStripList t.data
  rw [List.cons_append, pyStripList_cons_newline, pyStripList_append_newline]

theorem dropWhile_idem (p : Char → Bool) (l : List Char) :
    (l.dropWhile p).dropWhile p = l.dropWhile p := by
  induction l with
  | nil => rfl
  | cons c cs ih =>
    by_cases hp : p c
    · rw [List.dropWhile_cons_of_pos hp]
      exact ih
    · rw [List.dropWhile_cons_of_neg hp, List.dropWhile_cons_of_neg hp]

theorem dropWhile_head_false {p : Char → Bool} :
    ∀ {l : List Char} {c : Char} {rest : List Char},
      l.dropWhile p = c :: rest → p c = false := by
  intro l
  induction l with
  | nil => intro c rest hh; simp at hh
  | cons a as ih =>
    intro c rest hh
    by_cases hp : p a
    · rw [List.dropWhile_cons_of_pos hp] at hh
      exact ih hh
    · rw [List.dropWhile_cons_of_neg hp] at hh
      injection hh with h1 h2
      subst h1
      simpa using hp

theorem pyStripList_idem (l : List Char) :
    pyStripList (pyStripList l) = pyStripList l := by
  unfold pyStripList
  set p := isPySpace with hp
  set front := l.dropWhile p with hfront
  set D := front.reverse.dropWhile p with hD
  set T := (front.reverse.takeWhile p).reverse with hT
  have hfr : front = D.reverse ++ T := by
    have h2 := congrArg List.reverse (List.takeWhile_append_dropWhile p front.reverse)
    simp only [List.reverse_append, List.reverse_reverse] at h2
    exact h2.symm
  have hDrev : D.reverse.dropWhile p = D.reverse := by
    cases hcase : D.reverse with
    | nil => rfl
    | cons c cs =>
      have hfc : front = c :: (cs ++ T) := by
        rw [hfr, hcase, List.cons_append]
      have hpc : p c = false := dropWhile_head_false hfc
      exact List.dropWhile_cons_of_neg (by simp [hpc])
  rw [hDrev, List.reverse_reverse, hD, dropWhile_idem]

theorem pyStripList_subset {l : List Char} {c : Char} (h : c ∈ pyStripList l) : c ∈ l := by
  unfold pyStripList at h
  rw [List.mem_reverse] at h
  have h2 : c ∈ (l.dropWhile isPySpace).reverse := (List.dropWhile_sublist _).subset h
  rw [List.mem_reverse] at h2
  exact (List.dropWhile_sublist _).subset h2

/-- C4 (amended). For every response text containing no backtick character,
the grading client's cleaning step tolerates the fenced-code-block wrapper:
the wrapped text cleans to exactly the same string as the unwrapped text,
hence parses to the same JSON object, and cleaning such a text twice gives
the same result as cleaning it once. (For texts that do contain fence
characters the property fails — the global `replace` also deletes fence
sequences inside the payload; see the counterexample.) -/
theorem C4_fence_amended (t : String) (h : ∀ c ∈ t.data, c ≠ '`') :
    cleanResponse (wrapFenced t) = cleanResponse t ∧
    jsonLoadsLit (cleanResponse (wrapFenced t)) = jsonLoadsLit (cleanResponse t) ∧
    cleanResponse (cleanResponse t) = cleanResponse t := by
  have hsw := startsWith_false_of_no_backtick h
  have hclean : cleanResponse t = pyStrip t := cleanResponse_not_fenced hsw
  have heq : cleanResponse (wrapFenced t) = cleanResponse t := by
    rw [cleanResponse_wrapFenced h, hclean]
  refine ⟨heq, by rw [heq], ?_⟩
  rw [hclean]
  have hsub : ∀ c ∈ (pyStrip t).data, c ≠ '`' := by
    intro c hc
    exact h c (pyStripList_subset hc)
  rw [cleanResponse_not_fenced (startsWith_false_of_no_backtick hsub)]
  unfold pyStrip
  refine congrArg String.mk ?_
  show pyStripList (pyStripList t.data) = pyStripList t.data
  exact pyStripList_idem t.data

/-- C4 witness: the amended tolerance applied to a concrete fence-free
response text. -/
theorem C4_fence_amended_witness :
    cleanResponse (wrapFenced "\"score: 87\"") = cleanResponse "\"score: 87\"" ∧
    cleanResponse (cleanResponse "\"score: 87\"") = cleanResponse "\"score: 87\"" :=
  ⟨(C4_fence_amended "\"score: 87\"" (by decide)).1,
   (C4_fence_amended "\"score: 87\"" (by decide)).2.2⟩

/-- C4 counterexample. For the response text consisting of the JSON string
literal whose value is three backticks, wrapping changes the parse:
unwrapped it parses to the three-backtick string, wrapped the global
fence-removal deletes the backticks inside the JSON string and it parses to
the empty string — so wrapped and unwrapped texts do not always parse to
the same JSON object. -/
theorem C4_fence_counterexample :
    cleanResponse "\"```\"" = "\"```\"" ∧
    cleanResponse (wrapFenced "\"```\"") = "\"\"" ∧
    jsonLoadsLit (cleanResponse "\"```\"") = some (JValue.str "```") ∧
    jsonLoadsLit (cleanResponse (wrapFenced "\"```\"")) = some (JValue.str "") ∧
    JValue.str "```" ≠ JValue.str "" := by
  refine ⟨by decide, by decide, rfl, rfl, ?_⟩
  intro hcontra
  injection hcontra with h2
  exact absurd h2 (by decide)

theorem guiRunLoop_trace (parse : String → Option JValue) (total : Nat) :
    ∀ (subs : List Submission) (idx : Nat),
      (guiRunLoop parse total subs idx).snd
        = (List.range subs.length).map (fun j => floatDiv (idx + j + 1) total) := by
  intro subs
  induction subs with
  | nil => intro idx; rfl
  | cons s rest ih =>
    intro idx
    rw [guiRunLoop]
    simp only [ih (idx + 1), List.length_cons, List.range_succ_eq_map, List.map_cons,
      List.map_map]
    congr 1
    refine List.map_congr_left (fun j hj => ?_)
    simp only [Function.comp_apply]
    have h1 : idx + 1 + j + 1 = idx + (j + 1) + 1 := by omega
    rw [h1]

theorem floatDiv_self {N : ℕ} (h : N ≠ 0) : floatDiv N N = 1 := by
  have hpos : 0 < N := Nat.pos_of_ne_zero h
  have hlog : ratLog2floor N N = 0 := by
    unfold ratLog2floor
    rw [if_pos le_rfl, Nat.div_self hpos]
    rfl
  have hround : natRoundNE (N * 2 ^ (52 : Int).toNat) N = 2 ^ 52 := by
    unfold natRoundNE
    rw [show ((52 : Int).toNat) = 52 from rfl]
    rw [Nat.mul_div_cancel_left _ hpos, Nat.mul_mod_right]
    rw [if_pos (by omega)]
  have hsc : min ((52 : Int) - 0) 1074 = 52 := by decide
  unfold floatDiv
  rw [if_neg (by simp [h])]
  simp only [hlog, hsc]
  rw [if_pos (by decide)]
  rw [hround]
  rw [show ((52 : Int).toNat) = 52 from rfl]
  push_cast
  exact div_self (by positivity)

/-- C8 (amended). In the front-end, the progress indicator is updated once
per submission — including submissions that failed and produced no row,
since the update sits outside the inner handler — and after processing k of
N submissions its value is the IEEE-754 binary64 result of dividing k by N
(the double nearest k/N, ties to even): exactly k/N whenever that rational
is representable as a double, and in particular exactly 1 after the final
submission, but not exactly k/N in general. -/
theorem C8_progress_amended (parse : String → Option JValue) (subs : List Submission)
    (hne : subs ≠ []) :
    (guiRun parse subs).progressTrace.length = subs.length ∧
    (∀ k, 1 ≤ k → k ≤ subs.length →
        (guiRun parse subs).progressTrace[k - 1]? = some (floatDiv k subs.length)) ∧
    (guiRun parse subs).progressTrace[subs.length - 1]? = some 1 := by
  have hne2 : subs.isEmpty = false := by simpa [List.isEmpty_iff] using hne
  have htrace : (guiRun parse subs).progressTrace
      = (List.range subs.length).map (fun j => floatDiv (j + 1) subs.length) := by
    unfold guiRun
    rw [if_neg (by simp [hne2])]
    show (guiRunLoop parse subs.length subs 0).snd = _
    rw [guiRunLoop_trace parse subs.length subs 0]
    refine List.map_congr_left (fun j hj => ?_)
    have h0 : 0 + j + 1 = j + 1 := by omega
    rw [h0]
  have hlen : 0 < subs.length := List.length_pos.mpr hne
  have hget : ∀ k, 1 ≤ k → k ≤ subs.length →
      (guiRun parse subs).progressTrace[k - 1]? = some (floatDiv k subs.length) := by
    intro k h1 h2
    rw [htrace, List.getElem?_map, List.getElem?_range (by omega)]
    simp only [Option.map_some']
    have harg : k - 1 + 1 = k := by omega
    rw [harg]
  refine ⟨by simp [htrace], hget, ?_⟩
  rw [hget subs.length hlen le_rfl, floatDiv_self hlen.ne']

/-- C8 witness: the amended progress property applied to a concrete
two-submission run — 1/2 is exactly representable as a double, so the
value after the first submission is exactly 1/2, and the trace ends at
exactly 1. -/
theorem C8_progress_amended_witness :
    (guiRun jsonLoadsLit
        [⟨"a.pdf", ⟨some [⟨⟨"", ""⟩⟩]⟩, .error "e", .error "l"⟩,
         ⟨"b.pdf", ⟨none⟩, .error "e", .error "l"⟩]).progressTrace[0]?
      = some (floatDiv 1 2) ∧
    floatDiv 1 2 = 1 / 2 ∧
    (guiRun jsonLoadsLit
        [⟨"a.pdf", ⟨some [⟨⟨"", ""⟩⟩]⟩, .error "e", .error "l"⟩,
         ⟨"b.pdf", ⟨none⟩, .error "e", .error "l"⟩]).progressTrace[1]?
      = some 1 := by
  refine ⟨?_, ?_, ?_⟩
  · have h := (C8_progress_amended jsonLoadsLit
        [⟨"a.pdf", ⟨some [⟨⟨"", ""⟩⟩]⟩, .error "e", .error "l"⟩,
         ⟨"b.pdf", ⟨none⟩, .error "e", .error "l"⟩] (by simp)).2.1 1 le_rfl (by simp)
    simpa using h
  · rw [show floatDiv 1 2 = ((4503599627370496 : ℕ) : ℚ) / (2 : ℚ) ^ (53 : ℕ) from rfl]
    norm_num
  · have h := (C8_progress_amended jsonLoadsLit
        [⟨"a.pdf", ⟨some [⟨⟨"", ""⟩⟩]⟩, .error "e", .error "l"⟩,
         ⟨"b.pdf", ⟨none⟩, .error "e", .error "l"⟩] (by simp)).2.2
    simpa using h

/-- C8 counterexample. In a three-submission front-end run the progress
value set after the first submission is the binary64 double nearest 1/3,
namely 6004799503160661 / 2 ^ 54 (Python's 0.3333333333333333), which is
not the rational 1/3: the progress indicator does not equal k/N exactly. -/
theorem C8_progress_counterexample :
    (guiRun jsonLoadsLit
        [⟨"a.pdf", ⟨none⟩, .error "e", .error "l"⟩,
         ⟨"b.pdf", ⟨none⟩, .error "e", .error "l"⟩,
         ⟨"c.pdf", ⟨none⟩, .error "e", .error "l"⟩]).progressTrace[0]?
      = some (floatDiv 1 3) ∧
    floatDiv 1 3 = ((6004799503160661 : ℕ) : ℚ) / (2 : ℚ) ^ (54 : ℕ) ∧
    ((6004799503160661 : ℕ) : ℚ) / (2 : ℚ) ^ (54 : ℕ) ≠ 1 / 3 :=
  ⟨rfl, rfl, by norm_num⟩
